import Mathlib

/-!
# Rankly: drag-and-drop reordering of a row of tiles

Shallow embedding of `src/src/App.js` (the `App` component).

* The three `useState` cells `rectangles`, `draggingInfo`, `dropTargetIndex`
  are the fields of `AppState`.
* `handleMouseMove` and `handleMouseUp` describe the listeners when the
  component has re-rendered since the last event: the values they close over
  (`draggingInfo`, `dropTargetIndex`) and the `prev` argument of their
  functional updaters are then the same state. `step` and `run` deliver events
  this way, with a re-render after each.
* `mouseMoveListener`, `mouseUpListener`, `deliver` and `deliverAll` keep the
  two apart: the listeners read the values captured by the last run of the
  effect (dependencies at line 98), the updaters read the current cells, and a
  re-render is an event of its own.
* `rectRefs.current` together with `getBoundingClientRect` is an input of the
  handlers that measure: a list whose entry `idx` is `none` when there is no
  element handle for `idx` and `some box` when the element measures as `box`.
* JavaScript arrays are lists of optional values, `none` standing for
  `undefined`: reading past the end gives `undefined`, writing past the end
  grows the array.
* Coordinates are JavaScript numbers; they are modelled as integers (CSS
  pixels), so rounding of fractional coordinates is outside the model.
-/

namespace Rankly

/-! ## Data model -/

/-- A tile of the row: an entry `{ id, color }` of `rectangles`. -/
structure Tile where
  id : Nat
  color : String
deriving DecidableEq, Repr

/-- The constant `initialRectangles` (App.js lines 6-12). -/
def initialRectangles : List Tile :=
  [ { id := 1, color := "#e74c3c" },
    { id := 2, color := "#3498db" },
    { id := 3, color := "#2ecc71" },
    { id := 4, color := "#9b59b6" },
    { id := 5, color := "#f1c40f" } ]

/-- The fields of the result of `getBoundingClientRect()` that the code reads. -/
structure DOMRect where
  left : Int
  top : Int
  width : Int
  height : Int
deriving DecidableEq, Repr

/-- The fields of a mouse event that the code reads. -/
structure MouseEvent where
  clientX : Int
  clientY : Int
deriving DecidableEq, Repr

/-- The object stored in `draggingInfo` (App.js lines 33-40). -/
structure DragInfo where
  index : Nat
  offsetX : Int
  offsetY : Int
  x : Int
  y : Int
deriving DecidableEq, Repr

/-- A JavaScript array: `none` is an `undefined` entry. -/
abbrev JSArray (α : Type) := List (Option α)

/-- The expression `a[i]` read from a JavaScript array: `undefined` past the end. -/
def jsRead {α : Type} (a : JSArray α) (i : Nat) : Option α :=
  match a[i]? with
  | some v => v
  | none => none

/-- The assignment `a[i] = v` on a JavaScript array: writing at or past the end
grows the array, the skipped entries reading as `undefined`. -/
def jsWrite {α : Type} (a : JSArray α) (i : Nat) (v : Option α) : JSArray α :=
  if i < a.length then a.set i v
  else a ++ List.replicate (i - a.length) none ++ [v]

/-- The three state cells of `App` (App.js lines 14-18). -/
structure AppState where
  rectangles : JSArray Tile
  draggingInfo : Option DragInfo
  dropTargetIndex : Option Nat
deriving DecidableEq, Repr

/-- The state of the first render: `useState(initialRectangles)`, `useState(null)`,
`useState(null)`. -/
def initialState : AppState :=
  { rectangles := initialRectangles.map some, draggingInfo := none, dropTargetIndex := none }

/-! ## handleMouseDown (App.js lines 24-41) -/

/-- The handler `handleMouseDown(e, index)`, with `refs` the content of
`rectRefs.current` as measured at the event. -/
def handleMouseDown (e : MouseEvent) (index : Nat) (refs : JSArray DOMRect)
    (s : AppState) : AppState :=
  match jsRead refs index with
  | none => s                                    -- if (!rectElem) return;
  | some rect =>
    let offsetX := e.clientX - rect.left
    let offsetY := e.clientY - rect.top
    let info : DragInfo :=
      { index := index, offsetX := offsetX, offsetY := offsetY, x := rect.left, y := rect.top }
    { s with draggingInfo := some info }

/-! ## handleMouseMove (App.js lines 47-72) -/

/-- The condition of the `if` at App.js lines 62-67. -/
def pointerInside (e : MouseEvent) (r : DOMRect) : Bool :=
  decide (e.clientX ≥ r.left) && decide (e.clientX ≤ r.left + r.width) &&
  decide (e.clientY ≥ r.top) && decide (e.clientY ≤ r.top + r.height)

/-- One call of the callback given to `rectRefs.current.forEach` (lines 57-70):
the new value of `foundTarget` after visiting `elem` at `idx`. -/
def forEachBody (e : MouseEvent) (draggingIndex : Nat) (foundTarget : Option Nat)
    (elem : Option DOMRect) (idx : Nat) : Option Nat :=
  match elem with
  | none => foundTarget                          -- if (!elem) return;
  | some box =>
    if idx = draggingIndex then foundTarget      -- if (idx === draggingInfo.index) return;
    else if pointerInside e box then some idx    -- foundTarget = idx;
    else foundTarget

/-- The loop `forEach` over the entries from position `idx` on, in increasing
index order, threading `foundTarget`. -/
def forEachFrom (e : MouseEvent) (draggingIndex : Nat) :
    JSArray DOMRect → Nat → Option Nat → Option Nat
  | [], _, foundTarget => foundTarget
  | elem :: rest, idx, foundTarget =>
    forEachFrom e draggingIndex rest (idx + 1) (forEachBody e draggingIndex foundTarget elem idx)

/-- The value of `foundTarget` passed to `setDropTargetIndex` (lines 56-71). -/
def findTarget (e : MouseEvent) (draggingIndex : Nat) (refs : JSArray DOMRect) : Option Nat :=
  forEachFrom e draggingIndex refs 0 none

/-- The handler `handleMouseMove(e)`. The listener exists only while
`draggingInfo` is set (`if (!draggingInfo) return;` at line 45), so without a
session the event changes nothing. -/
def handleMouseMove (e : MouseEvent) (refs : JSArray DOMRect) (s : AppState) : AppState :=
  match s.draggingInfo with
  | none => s
  | some prev =>
    let next : DragInfo :=
      { prev with x := e.clientX - prev.offsetX, y := e.clientY - prev.offsetY }
    { s with draggingInfo := some next, dropTargetIndex := findTarget e prev.index refs }

/-! ## handleMouseUp (App.js lines 74-88) -/

/-- The updater given to `setRectangles` (lines 77-83): copy, then exchange the
entries at `i` and `j` through `temp`. -/
def swapRects (i j : Nat) (prev : JSArray Tile) : JSArray Tile :=
  let newRects := prev                           -- [...prev]
  let temp := jsRead newRects i
  let newRects := jsWrite newRects i (jsRead newRects j)
  let newRects := jsWrite newRects j temp
  newRects

/-- The handler `handleMouseUp(e)`; the event itself is not read. As for
`handleMouseMove`, the listener exists only while `draggingInfo` is set. -/
def handleMouseUp (s : AppState) : AppState :=
  match s.draggingInfo with
  | none => s
  | some info =>
    let rectangles :=
      match s.dropTargetIndex with
      | none => s.rectangles                     -- dropTargetIndex !== null fails
      | some target =>
        if target ≠ info.index then swapRects info.index target s.rectangles
        else s.rectangles
    { rectangles := rectangles, draggingInfo := none, dropTargetIndex := none }

/-! ## The floating copy (App.js lines 122-134) -/

/-- The error a render can raise: reading a property of `undefined`. -/
inductive JSError where
  | typeError
deriving DecidableEq, Repr

/-- What the floating `div` shows: `backgroundColor`, `left`, `top` of its style
and the id it displays. -/
structure FloatingCopy where
  backgroundColor : String
  left : Int
  top : Int
  id : Nat
deriving DecidableEq, Repr

/-- The expression `draggingInfo && (<div ...>)` of the render: no copy without a
session; with a session the copy reads `rectangles[draggingInfo.index].color` and
`.id`, which throws when that entry is `undefined`. -/
def renderFloating (s : AppState) : Except JSError (Option FloatingCopy) :=
  match s.draggingInfo with
  | none => .ok none
  | some info =>
    match jsRead s.rectangles info.index with
    | none => .error .typeError
    | some rect =>
      .ok (some { backgroundColor := rect.color, left := info.x, top := info.y, id := rect.id })

/-! ## Event sequences -/

/-- The events the component reacts to, with the measurements they observe. -/
inductive Op where
  | beginDrag (e : MouseEvent) (index : Nat) (refs : JSArray DOMRect)
  | updateDrag (e : MouseEvent) (refs : JSArray DOMRect)
  | endDrag
deriving Repr

/-- The measurements an event observes are indexed by the `n` tile positions:
`rectRefs.current` has one entry (an element handle or none) per position. -/
def Op.refsIndexedBy (n : Nat) : Op → Prop
  | .beginDrag _ _ refs => refs.length = n
  | .updateDrag _ refs => refs.length = n
  | .endDrag => True

/-- The effect of one event on the state. -/
def step (s : AppState) : Op → AppState
  | .beginDrag e index refs => handleMouseDown e index refs s
  | .updateDrag e refs => handleMouseMove e refs s
  | .endDrag => handleMouseUp s

/-- The effect of a sequence of events, in delivery order. -/
def run (s : AppState) (ops : List Op) : AppState :=
  ops.foldl step s

/-! ## Listeners and re-renders (App.js lines 44-98)

The effect runs after a render and builds `handleMouseMove` and `handleMouseUp`
as closures over the `draggingInfo` and `dropTargetIndex` of that render. The
setters only schedule the next render, so until it has happened the listeners
still read the captured values, while a functional updater reads the current
content of its cell. -/

/-- The values of a render captured by the listeners that its effect attaches. -/
structure Listeners where
  draggingInfo : DragInfo
  dropTargetIndex : Option Nat
deriving DecidableEq, Repr

/-- The effect of lines 44-98 run after a render that saw the cells `s`: no
listener without a session (line 45), otherwise listeners closed over the
session and the drop target of that render. -/
def useEffect (s : AppState) : Option Listeners :=
  match s.draggingInfo with
  | none => none                                 -- if (!draggingInfo) return;
  | some info => some { draggingInfo := info, dropTargetIndex := s.dropTargetIndex }

/-- The listener `handleMouseMove` of lines 47-72 with captured values `l`, run on
the current cells. The updater of `setDraggingInfo` reads `prev` from the cells
and throws when it is null (`prev.offsetX`); the scan skips the captured
`draggingInfo.index`. -/
def mouseMoveListener (l : Listeners) (e : MouseEvent) (refs : JSArray DOMRect)
    (cells : AppState) : Except JSError AppState :=
  match cells.draggingInfo with
  | none => .error .typeError
  | some prev =>
    let next : DragInfo :=
      { prev with x := e.clientX - prev.offsetX, y := e.clientY - prev.offsetY }
    .ok { cells with draggingInfo := some next,
                     dropTargetIndex := findTarget e l.draggingInfo.index refs }

/-- The listener `handleMouseUp` of lines 74-88 with captured values `l`, run on
the current cells: the test of line 76 and the indices of the swap are the
captured ones, the array swapped is the current one (`prev` of the updater). -/
def mouseUpListener (l : Listeners) (cells : AppState) : AppState :=
  let rectangles :=
    match l.dropTargetIndex with
    | none => cells.rectangles                   -- dropTargetIndex !== null fails
    | some target =>
      if target ≠ l.draggingInfo.index then
        swapRects l.draggingInfo.index target cells.rectangles
      else cells.rectangles
  { rectangles := rectangles, draggingInfo := none, dropTargetIndex := none }

/-- The mounted component: the current content of the state cells and the
listeners attached by the last run of the effect. -/
structure Mounted where
  cells : AppState
  listeners : Option Listeners
deriving DecidableEq, Repr

/-- What can happen to the mounted component: a DOM event is delivered, or React
re-renders it and runs the effect. -/
inductive Event where
  | mouseDown (e : MouseEvent) (index : Nat) (refs : JSArray DOMRect)
  | mouseMove (e : MouseEvent) (refs : JSArray DOMRect)
  | mouseUp
  | render
deriving Repr

/-- The component after one event. A mouse move or release without attached
listeners changes nothing; a re-render evaluates the floating copy and replaces
the listeners by those of the current cells. -/
def deliver (c : Mounted) : Event → Except JSError Mounted
  | .mouseDown e index refs => .ok { c with cells := handleMouseDown e index refs c.cells }
  | .mouseMove e refs =>
    match c.listeners with
    | none => .ok c
    | some l =>
      match mouseMoveListener l e refs c.cells with
      | .error err => .error err
      | .ok cells => .ok { c with cells := cells }
  | .mouseUp =>
    match c.listeners with
    | none => .ok c
    | some l => .ok { c with cells := mouseUpListener l c.cells }
  | .render =>
    match renderFloating c.cells with
    | .error err => .error err
    | .ok _ => .ok { c with listeners := useEffect c.cells }

/-- The component after a sequence of events, in the order they happen. -/
def deliverAll (c : Mounted) : List Event → Except JSError Mounted
  | [] => .ok c
  | ev :: rest =>
    match deliver c ev with
    | .error err => .error err
    | .ok next => deliverAll next rest

/-- The component after its first render: the initial cells, and the effect run
on them. -/
def mounted : Mounted :=
  { cells := initialState, listeners := useEffect initialState }

/-- The content of the state cells after a sequence of events on the freshly
mounted component. -/
def cellsAfter (events : List Event) : Except JSError AppState :=
  match deliverAll mounted events with
  | .error err => .error err
  | .ok c => .ok c.cells

/-! ## Specification-side predicates

These follow the wording of the specification and are compared with the code
above; none of them is used by the handlers. -/

/-- The point `(px, py)` lies in the closed bounding box `box`, all four edges
included. -/
def inClosedBox (box : DOMRect) (px py : Int) : Prop :=
  box.left ≤ px ∧ px ≤ box.left + box.width ∧ box.top ≤ py ∧ py ≤ box.top + box.height

/-- Tile `idx` is a candidate drop target: it is not the source tile, it has a
measured box, and the pointer of `e` lies in that closed box. -/
def isHit (e : MouseEvent) (sourceIndex : Nat) (refs : JSArray DOMRect) (idx : Nat) : Prop :=
  idx ≠ sourceIndex ∧
    ∃ box, refs[idx]? = some (some box) ∧ inClosedBox box e.clientX e.clientY

/-- A sequence of pointer moves, each with the measurements it observes. -/
abbrev Moves := List (MouseEvent × JSArray DOMRect)

/-- The moves of the list applied in order with `handleMouseMove`. -/
def updateDrags (s : AppState) (moves : Moves) : AppState :=
  moves.foldl (fun st m => handleMouseMove m.1 m.2 st) s

/-- Two boxes are non-overlapping: no point lies in both closed boxes. -/
def disjointBoxes (a b : DOMRect) : Prop :=
  ∀ px py : Int, ¬ (inClosedBox a px py ∧ inClosedBox b px py)

/-! ## Invariant and example inputs -/

/-- The invariant of the reachable states, relative to the tile sequence `init`
of the first render: the rectangles are a rearrangement of `init`, and the
source index of a session and the drop target, when set, are positions of the
sequence. -/
def Reordered (init : JSArray Tile) (s : AppState) : Prop :=
  s.rectangles.Perm init ∧
  (∀ d, s.draggingInfo = some d → d.index < init.length) ∧
  (∀ t, s.dropTargetIndex = some t → t < init.length)

/-- A row of five measured boxes, 100 by 100, laid out left to right with a gap
of 10, used to instantiate the theorems. -/
def rowBoxes : JSArray DOMRect :=
  [ some ⟨10, 10, 100, 100⟩, some ⟨120, 10, 100, 100⟩, some ⟨230, 10, 100, 100⟩,
    some ⟨340, 10, 100, 100⟩, some ⟨450, 10, 100, 100⟩ ]

/-- Three measured boxes that overlap each other, used to instantiate the
tie-break theorem. -/
def overlappingBoxes : JSArray DOMRect :=
  [ some ⟨0, 0, 100, 100⟩, some ⟨50, 0, 100, 100⟩, some ⟨60, 0, 100, 100⟩ ]

/-- The row of five boxes with the element handle of tile 1 missing. -/
def rowBoxesMissingOne : JSArray DOMRect :=
  [ some ⟨10, 10, 100, 100⟩, none, some ⟨230, 10, 100, 100⟩,
    some ⟨340, 10, 100, 100⟩, some ⟨450, 10, 100, 100⟩ ]

/-- The state of the first render with a session added on tile `index`, grabbed
at offset (5, 5), its floating copy at `(x, y)`. -/
def grabbed (index : Nat) (x y : Int) : AppState :=
  { initialState with draggingInfo := some ⟨index, 5, 5, x, y⟩ }

/-! ## The swap committed on release -/

/-- In range, reading a JavaScript array agrees with list indexing. -/
theorem jsRead_of_lt {α : Type} (a : JSArray α) (i : Nat) (h : i < a.length) :
    some (jsRead a i) = a[i]? := by
  simp [jsRead, List.getElem?_eq_getElem h]

/-- In range, the assignment is the list update. -/
theorem jsWrite_of_lt {α : Type} (a : JSArray α) (i : Nat) (v : Option α) (h : i < a.length) :
    jsWrite a i v = a.set i v := by
  simp [jsWrite, h]

/-- In range, `swapRects` is two list updates. -/
theorem swapRects_of_lt (i j : Nat) (prev : JSArray Tile) (hi : i < prev.length)
    (hj : j < prev.length) :
    swapRects i j prev = (prev.set i (prev[j])).set j (prev[i]) := by
  simp [swapRects, jsWrite, jsRead, hi, hj, List.getElem?_eq_getElem]

/-- The rectangles after a release with a session and a drop target other than
the source. -/
theorem handleMouseUp_rectangles_swap (s : AppState) (info : DragInfo) (target : Nat)
    (hinfo : s.draggingInfo = some info) (htarget : s.dropTargetIndex = some target)
    (hne : info.index ≠ target) :
    (handleMouseUp s).rectangles = swapRects info.index target s.rectangles := by
  simp [handleMouseUp, hinfo, htarget, Ne.symm hne]

/-- C1: a release with an active session on `sourceIndex` and a drop target
`dropTarget`, both in range and different, gives a sequence of the same length
in which the two positions have exchanged their tiles and every other position
holds the tile it held before. -/
theorem endDrag_swaps_exactly_two (s : AppState) (info : DragInfo) (target : Nat)
    (hinfo : s.draggingInfo = some info) (htarget : s.dropTargetIndex = some target)
    (hsrc : info.index < s.rectangles.length) (htgt : target < s.rectangles.length)
    (hne : info.index ≠ target) :
    (handleMouseUp s).rectangles.length = s.rectangles.length ∧
    (handleMouseUp s).rectangles[info.index]? = s.rectangles[target]? ∧
    (handleMouseUp s).rectangles[target]? = s.rectangles[info.index]? ∧
    ∀ k, k ≠ info.index → k ≠ target →
      (handleMouseUp s).rectangles[k]? = s.rectangles[k]? := by
  rw [handleMouseUp_rectangles_swap s info target hinfo htarget hne,
    swapRects_of_lt _ _ _ hsrc htgt]
  refine ⟨by simp, ?_, ?_, ?_⟩
  · simp [List.getElem?_set, hsrc, htgt, Ne.symm hne, List.getElem?_eq_getElem]
  · simp [List.getElem?_set, hsrc, htgt, List.getElem?_eq_getElem]
  · intro k hk1 hk2
    simp [List.getElem?_set, Ne.symm hk1, Ne.symm hk2]

/-- C1 at a concrete input: tiles 1..5, session on index 0, drop target 2. -/
theorem endDrag_swaps_exactly_two_witness :
    (handleMouseUp { initialState with
        draggingInfo := some ⟨0, 5, 5, 40, 40⟩, dropTargetIndex := some 2 }).rectangles.length
      = initialState.rectangles.length ∧
    (handleMouseUp { initialState with
        draggingInfo := some ⟨0, 5, 5, 40, 40⟩, dropTargetIndex := some 2 }).rectangles[0]?
      = initialState.rectangles[2]? :=
  have h := endDrag_swaps_exactly_two
    { initialState with draggingInfo := some ⟨0, 5, 5, 40, 40⟩, dropTargetIndex := some 2 }
    ⟨0, 5, 5, 40, 40⟩ 2 rfl rfl (by decide) (by decide) (by decide)
  ⟨h.1, h.2.1⟩

/-- C2: a release with an active session and no drop target returns the tile
sequence unchanged; the handler is a total function, so it produces this state
on every input. -/
theorem endDrag_without_target_keeps_order (s : AppState) (info : DragInfo)
    (hinfo : s.draggingInfo = some info) (htarget : s.dropTargetIndex = none) :
    (handleMouseUp s).rectangles = s.rectangles := by
  simp [handleMouseUp, hinfo, htarget]

/-- C2 at a concrete input: tile 2 grabbed, no drop target. -/
theorem endDrag_without_target_keeps_order_witness :
    (handleMouseUp { initialState with draggingInfo := some ⟨1, 3, 4, 200, 90⟩ }).rectangles
      = initialRectangles.map some :=
  endDrag_without_target_keeps_order
    { initialState with draggingInfo := some ⟨1, 3, 4, 200, 90⟩ } ⟨1, 3, 4, 200, 90⟩ rfl rfl

/-! ## Hit-testing on pointer moves -/

/-- The test in the code is membership in the closed box. -/
theorem pointerInside_iff (e : MouseEvent) (box : DOMRect) :
    pointerInside e box = true ↔ inClosedBox box e.clientX e.clientY := by
  simp [pointerInside, inClosedBox, and_assoc]

/-- The loop returns the last candidate among the entries it visits, and the
incoming `foundTarget` when it visits no candidate. -/
theorem forEachFrom_last_hit (e : MouseEvent) (d : Nat) (rest : JSArray DOMRect) :
    ∀ (idx : Nat) (found : Option Nat),
      (∃ k box, rest[k]? = some (some box) ∧ idx + k ≠ d ∧ pointerInside e box = true ∧
          (∀ k' box', rest[k']? = some (some box') → idx + k' ≠ d →
              pointerInside e box' = true → k' ≤ k) ∧
          forEachFrom e d rest idx found = some (idx + k)) ∨
      ((∀ k box, rest[k]? = some (some box) → idx + k ≠ d → pointerInside e box = false) ∧
          forEachFrom e d rest idx found = found) := by
  induction rest with
  | nil =>
    intro idx found
    right
    exact ⟨by simp, rfl⟩
  | cons elem rest ih =>
    intro idx found
    rcases ih (idx + 1) (forEachBody e d found elem idx) with
      ⟨k, box, hk, hne, hin, hmax, hres⟩ | ⟨hno, hres⟩
    · left
      refine ⟨k + 1, box, by simpa using hk, by omega, hin, ?_, ?_⟩
      · intro k' box' hk' hne' hin'
        cases k' with
        | zero => omega
        | succ j =>
          have := hmax j box' (by simpa using hk') (by omega) hin'
          omega
      · simp only [forEachFrom, hres]
        congr 1
        omega
    · by_cases h0 : ∃ box, elem = some box ∧ idx ≠ d ∧ pointerInside e box = true
      · obtain ⟨box, hbox, hne, hin⟩ := h0
        left
        refine ⟨0, box, by simp [hbox], by simpa using hne, hin, ?_, ?_⟩
        · intro k' box' hk' hne' hin'
          cases k' with
          | zero => exact Nat.le_refl 0
          | succ j =>
            have := hno j box' (by simpa using hk') (by omega)
            simp [this] at hin'
        · have hbody : forEachBody e d found elem idx = some idx := by
            simp [forEachBody, hbox, hne, hin]
          rw [hbody] at hres
          simpa [forEachFrom, hbody] using hres
      · right
        refine ⟨?_, ?_⟩
        · intro k box hk hne
          cases k with
          | zero =>
            have hbox : elem = some box := by simpa using hk
            by_contra hin
            exact h0 ⟨box, hbox, by simpa using hne, by simpa using hin⟩
          | succ j => exact hno j box (by simpa using hk) (by omega)
        · simp only [forEachFrom, hres]
          cases elem with
          | none => rfl
          | some box =>
            by_cases hd : idx = d
            · simp [forEachBody, hd]
            · have : pointerInside e box = false := by
                by_contra hin
                exact h0 ⟨box, rfl, hd, by simpa using hin⟩
              simp [forEachBody, hd, this]

/-- The drop target found by a move: the greatest candidate index, or none when
there is no candidate. -/
theorem findTarget_spec (e : MouseEvent) (d : Nat) (refs : JSArray DOMRect) :
    (∃ t, isHit e d refs t ∧ (∀ k, isHit e d refs k → k ≤ t) ∧ findTarget e d refs = some t) ∨
    ((∀ k, ¬ isHit e d refs k) ∧ findTarget e d refs = none) := by
  rcases forEachFrom_last_hit e d refs 0 none with
    ⟨k, box, hk, hne, hin, hmax, hres⟩ | ⟨hno, hres⟩
  · left
    refine ⟨k, ⟨by omega, box, hk, (pointerInside_iff e box).1 hin⟩, ?_, ?_⟩
    · rintro k' ⟨hne', box', hk', hin'⟩
      exact hmax k' box' hk' (by omega) ((pointerInside_iff e box').2 hin')
    · simpa [findTarget] using hres
  · right
    refine ⟨?_, by simpa [findTarget] using hres⟩
    rintro k ⟨hne, box, hk, hin⟩
    have := hno k box hk (by omega)
    rw [(pointerInside_iff e box).2 hin] at this
    exact Bool.noConfusion this

/-- The state after a move in an active session. -/
theorem handleMouseMove_of_session (e : MouseEvent) (refs : JSArray DOMRect) (s : AppState)
    (info : DragInfo) (hinfo : s.draggingInfo = some info) :
    handleMouseMove e refs s =
      { rectangles := s.rectangles,
        draggingInfo := some { index := info.index, offsetX := info.offsetX,
                               offsetY := info.offsetY, x := e.clientX - info.offsetX,
                               y := e.clientY - info.offsetY },
        dropTargetIndex := findTarget e info.index refs } := by
  simp [handleMouseMove, hinfo]

/-- The session after any number of moves keeps the source index and the grab
offset it started with. -/
theorem updateDrags_keeps_offset (moves : Moves) :
    ∀ (s : AppState) (info : DragInfo), s.draggingInfo = some info →
      ∃ d, (updateDrags s moves).draggingInfo = some d ∧ d.index = info.index ∧
        d.offsetX = info.offsetX ∧ d.offsetY = info.offsetY := by
  induction moves with
  | nil =>
    intro s info hinfo
    exact ⟨info, hinfo, rfl, rfl, rfl⟩
  | cons m ms ih =>
    intro s info hinfo
    have hstep := handleMouseMove_of_session m.1 m.2 s info hinfo
    have := ih (handleMouseMove m.1 m.2 s) _ (by rw [hstep])
    simpa [updateDrags] using this

/-- The session created by a press on a measurable tile. -/
theorem handleMouseDown_of_measured (e : MouseEvent) (index : Nat) (refs : JSArray DOMRect)
    (s : AppState) (rect : DOMRect) (hrect : refs[index]? = some (some rect)) :
    handleMouseDown e index refs s =
      { rectangles := s.rectangles,
        draggingInfo := some { index := index, offsetX := e.clientX - rect.left,
                               offsetY := e.clientY - rect.top, x := rect.left, y := rect.top },
        dropTargetIndex := s.dropTargetIndex } := by
  simp [handleMouseDown, jsRead, hrect]

/-- The row of five boxes has exactly these entries. -/
theorem rowBoxes_entry (idx : Nat) (box : DOMRect) (h : rowBoxes[idx]? = some (some box)) :
    idx < 5 ∧ box = ⟨10 + 110 * idx, 10, 100, 100⟩ := by
  rcases idx with _ | _ | _ | _ | _ | k <;> simp [rowBoxes] at h <;> subst h <;> simp

/-! ## Pointer moves -/

/-- When the component re-renders between the events: in an active session the
drop target set by a move is never the source index, wherever the pointer is and
whatever the measured boxes are; and when the pointer lies in no box other than
the source tile's own, the move sets no drop target and a release delivered
after the re-render that follows it leaves the tile sequence unchanged. -/
theorem updateDrag_excludes_source (s : AppState) (info : DragInfo) (e : MouseEvent)
    (refs : JSArray DOMRect) (hinfo : s.draggingInfo = some info) :
    (handleMouseMove e refs s).dropTargetIndex ≠ some info.index ∧
    ((∀ idx box, idx ≠ info.index → refs[idx]? = some (some box) →
          ¬ inClosedBox box e.clientX e.clientY) →
      (handleMouseMove e refs s).dropTargetIndex = none ∧
      (handleMouseUp (handleMouseMove e refs s)).rectangles = s.rectangles) := by
  rw [handleMouseMove_of_session e refs s info hinfo]
  rcases findTarget_spec e info.index refs with ⟨t, ht, -, hres⟩ | ⟨-, hres⟩
  · refine ⟨?_, ?_⟩
    · simp only [hres]
      intro h
      exact ht.1 (Option.some.inj h)
    · intro hnone
      obtain ⟨hne, box, hbox, hin⟩ := ht
      exact absurd hin (hnone t box hne hbox)
  · refine ⟨by simp [hres], fun _ => ⟨hres, ?_⟩⟩
    simp [handleMouseUp, hres]

/-- The same at a concrete input: tile 0 grabbed, pointer at (15, 15) inside tile
0's own box in a row of five boxes, a re-render before the release. -/
theorem updateDrag_excludes_source_witness :
    inClosedBox ⟨10, 10, 100, 100⟩ 15 15 ∧
    (handleMouseMove ⟨15, 15⟩ rowBoxes (grabbed 0 10 10)).dropTargetIndex ≠ some 0 ∧
    (handleMouseMove ⟨15, 15⟩ rowBoxes (grabbed 0 10 10)).dropTargetIndex = none ∧
    (handleMouseUp (handleMouseMove ⟨15, 15⟩ rowBoxes (grabbed 0 10 10))).rectangles
      = initialRectangles.map some :=
  have h := updateDrag_excludes_source (grabbed 0 10 10) ⟨0, 5, 5, 10, 10⟩ ⟨15, 15⟩ rowBoxes rfl
  have hnone : ∀ idx box, idx ≠ 0 → rowBoxes[idx]? = some (some box) →
      ¬ inClosedBox box 15 15 := by
    intro idx box hne hbox
    obtain ⟨-, rfl⟩ := rowBoxes_entry idx box hbox
    simp only [inClosedBox]
    omega
  ⟨by simp [inClosedBox], h.1, (h.2 hnone).1, (h.2 hnone).2⟩

/-- C4: in a session started by a press at `e0` on a tile measured as `rect`,
after any finite sequence of moves the grab offset is still
`(e0.clientX - rect.left, e0.clientY - rect.top)`, and a further move at `e`
gives the floating copy the position `e` minus that offset, whatever the earlier
pointer positions were. -/
theorem grabOffset_constant_position_fresh (s : AppState) (e0 : MouseEvent) (index : Nat)
    (refs0 : JSArray DOMRect) (rect : DOMRect) (hrect : refs0[index]? = some (some rect))
    (moves : Moves) (e : MouseEvent) (refs : JSArray DOMRect) :
    (∃ d, (updateDrags (handleMouseDown e0 index refs0 s) moves).draggingInfo = some d ∧
        d.offsetX = e0.clientX - rect.left ∧ d.offsetY = e0.clientY - rect.top) ∧
    (handleMouseMove e refs (updateDrags (handleMouseDown e0 index refs0 s) moves)).draggingInfo
      = some { index := index,
               offsetX := e0.clientX - rect.left,
               offsetY := e0.clientY - rect.top,
               x := e.clientX - (e0.clientX - rect.left),
               y := e.clientY - (e0.clientY - rect.top) } := by
  have hdown := handleMouseDown_of_measured e0 index refs0 s rect hrect
  obtain ⟨d, hd, hidx, hox, hoy⟩ :=
    updateDrags_keeps_offset moves (handleMouseDown e0 index refs0 s) _ (by rw [hdown])
  refine ⟨⟨d, hd, hox, hoy⟩, ?_⟩
  rw [handleMouseMove_of_session e refs _ d hd]
  simp only [hidx, hox, hoy]

/-- C4 at a concrete input: tile 1 pressed at (125, 17), two moves, then a move
to (300, 200). -/
theorem grabOffset_constant_position_fresh_witness :
    (handleMouseMove ⟨300, 200⟩ rowBoxes
        (updateDrags (handleMouseDown ⟨125, 17⟩ 1 rowBoxes initialState)
          [(⟨130, 20⟩, rowBoxes), (⟨500, 60⟩, rowBoxes)])).draggingInfo
      = some { index := 1, offsetX := 125 - 120, offsetY := 17 - 10,
               x := 300 - (125 - 120), y := 200 - (17 - 10) } :=
  (grabOffset_constant_position_fresh initialState ⟨125, 17⟩ 1 rowBoxes ⟨120, 10, 100, 100⟩ rfl
    [(⟨130, 20⟩, rowBoxes), (⟨500, 60⟩, rowBoxes)] ⟨300, 200⟩ rowBoxes).2

/-- C5: the test the code applies to a box is membership in the closed box, all
four edges included; in an active session a move sets the drop target to none
exactly when no non-source tile is hit, and otherwise to the index of a
non-source tile that is hit. -/
theorem updateDrag_hit_test (s : AppState) (info : DragInfo) (e : MouseEvent)
    (refs : JSArray DOMRect) (hinfo : s.draggingInfo = some info) :
    (∀ box : DOMRect, pointerInside e box = true ↔
        (box.left ≤ e.clientX ∧ e.clientX ≤ box.left + box.width ∧
         box.top ≤ e.clientY ∧ e.clientY ≤ box.top + box.height)) ∧
    ((handleMouseMove e refs s).dropTargetIndex = none ↔
        ∀ idx, ¬ isHit e info.index refs idx) ∧
    (∀ t, (handleMouseMove e refs s).dropTargetIndex = some t → isHit e info.index refs t) := by
  rw [handleMouseMove_of_session e refs s info hinfo]
  refine ⟨fun box => pointerInside_iff e box, ?_, ?_⟩
  · rcases findTarget_spec e info.index refs with ⟨t, ht, -, hres⟩ | ⟨hno, hres⟩
    · simp only [hres]
      constructor
      · intro h
        exact Option.noConfusion h
      · intro h
        exact absurd ht (h t)
    · simp only [hres]
      exact ⟨fun _ => hno, fun _ => trivial⟩
  · intro t ht
    rcases findTarget_spec e info.index refs with ⟨t', ht', -, hres⟩ | ⟨-, hres⟩
    · simp only [hres] at ht
      cases ht
      exact ht'
    · simp only [hres] at ht
      exact Option.noConfusion ht

/-- C5 at a concrete input: tile 0 grabbed, pointer on the right edge of tile 2's
box (x = 330 = 230 + 100) and on its top edge (y = 10). -/
theorem updateDrag_hit_test_witness :
    isHit ⟨330, 10⟩ 0 rowBoxes 2 ∧
    (handleMouseMove ⟨330, 10⟩ rowBoxes (grabbed 0 10 10)).dropTargetIndex = some 2 :=
  have h := updateDrag_hit_test (grabbed 0 10 10) ⟨0, 5, 5, 10, 10⟩ ⟨330, 10⟩ rowBoxes rfl
  ⟨h.2.2 2 (by decide), by decide⟩

/-- C6: in an active session, when two different non-source tiles are hit, a move
sets the drop target to the greatest hit index, the last hit tile in iteration
order; it lies strictly after the first of the two. -/
theorem updateDrag_last_hit_wins (s : AppState) (info : DragInfo) (e : MouseEvent)
    (refs : JSArray DOMRect) (i j : Nat) (hinfo : s.draggingInfo = some info)
    (hi : isHit e info.index refs i) (hj : isHit e info.index refs j) (hij : i ≠ j) :
    ∃ t, (handleMouseMove e refs s).dropTargetIndex = some t ∧ isHit e info.index refs t ∧
      (∀ k, isHit e info.index refs k → k ≤ t) ∧ min i j < t := by
  rw [handleMouseMove_of_session e refs s info hinfo]
  rcases findTarget_spec e info.index refs with ⟨t, ht, hmax, hres⟩ | ⟨hno, -⟩
  · refine ⟨t, hres, ht, hmax, ?_⟩
    have h1 := hmax i hi
    have h2 := hmax j hj
    omega
  · exact absurd hi (hno i)

/-- C6 at a concrete input: tile 0 grabbed, the pointer at (70, 10) lies in all
three overlapping boxes; tiles 1 and 2 are hit and the drop target is 2. -/
theorem updateDrag_last_hit_wins_witness :
    isHit ⟨70, 10⟩ 0 overlappingBoxes 1 ∧ isHit ⟨70, 10⟩ 0 overlappingBoxes 2 ∧
    (handleMouseMove ⟨70, 10⟩ overlappingBoxes (grabbed 0 0 0)).dropTargetIndex = some 2 ∧
    ∃ t, (handleMouseMove ⟨70, 10⟩ overlappingBoxes (grabbed 0 0 0)).dropTargetIndex = some t ∧
      isHit ⟨70, 10⟩ 0 overlappingBoxes t ∧
      (∀ k, isHit ⟨70, 10⟩ 0 overlappingBoxes k → k ≤ t) ∧ min 1 2 < t :=
  have h1 : isHit ⟨70, 10⟩ 0 overlappingBoxes 1 :=
    ⟨by decide, ⟨50, 0, 100, 100⟩, rfl, by simp [inClosedBox]⟩
  have h2 : isHit ⟨70, 10⟩ 0 overlappingBoxes 2 :=
    ⟨by decide, ⟨60, 0, 100, 100⟩, rfl, by simp [inClosedBox]⟩
  ⟨h1, h2, by decide,
    updateDrag_last_hit_wins (grabbed 0 0 0) ⟨0, 5, 5, 0, 0⟩ ⟨70, 10⟩ overlappingBoxes 1 2
      rfl h1 h2 (by decide)⟩

/-! ## Claims about press and release -/

/-- C7: a release in an active session leaves no session and no drop target,
whatever the drop target was before (none, the source index, or another
index). -/
theorem endDrag_clears_session (s : AppState) (info : DragInfo)
    (hinfo : s.draggingInfo = some info) :
    (handleMouseUp s).draggingInfo = none ∧ (handleMouseUp s).dropTargetIndex = none := by
  simp [handleMouseUp, hinfo]

/-- C7 at a concrete input: tile 0 grabbed with drop target 2 (a swap is
committed). -/
theorem endDrag_clears_session_witness :
    (handleMouseUp { grabbed 0 10 10 with dropTargetIndex := some 2 }).draggingInfo = none ∧
    (handleMouseUp { grabbed 0 10 10 with dropTargetIndex := some 2 }).dropTargetIndex = none :=
  endDrag_clears_session { grabbed 0 10 10 with dropTargetIndex := some 2 } ⟨0, 5, 5, 10, 10⟩ rfl

/-- C8: a press at `e` on a tile `index` whose box `rect` is obtainable yields, from
any state (idle or with a session of any content), the session with source
`index`, grab offset `(e.clientX - rect.left, e.clientY - rect.top)` and floating
position `(rect.left, rect.top)`; nothing of an earlier session remains. -/
theorem beginDrag_creates_session (s : AppState) (e : MouseEvent) (index : Nat)
    (refs : JSArray DOMRect) (rect : DOMRect) (hrect : refs[index]? = some (some rect)) :
    (handleMouseDown e index refs s).draggingInfo =
      some { index := index,
             offsetX := e.clientX - rect.left,
             offsetY := e.clientY - rect.top,
             x := rect.left,
             y := rect.top } := by
  rw [handleMouseDown_of_measured e index refs s rect hrect]

/-- C8 at a concrete input: a press at (235, 50) on tile 2 while a session on
tile 0 is active replaces that session. -/
theorem beginDrag_creates_session_witness :
    (handleMouseDown ⟨235, 50⟩ 2 rowBoxes (grabbed 0 77 88)).draggingInfo =
      some { index := 2, offsetX := 235 - 230, offsetY := 50 - 10, x := 230, y := 10 } :=
  beginDrag_creates_session (grabbed 0 77 88) ⟨235, 50⟩ 2 rowBoxes ⟨230, 10, 100, 100⟩ rfl

/-! ## The end-to-end scenario -/

/-- When the component re-renders after every event (`run`): with tiles
`[A, B, C, D, E]` whose boxes are pairwise non-overlapping, a press on tile 0
with the pointer at A's top-left corner plus (5, 5), then a move to a point
inside C's box, then a release, give the tile sequence `[C, B, A, D, E]` and the
idle state (no session, no drop target). -/
theorem scenario_grab_A_drop_on_C (A B C D E : Tile) (rA rB rC rD rE : DOMRect)
    (e : MouseEvent)
    (hdisj : List.Pairwise disjointBoxes [rA, rB, rC, rD, rE])
    (hC : inClosedBox rC e.clientX e.clientY) :
    run { rectangles := [some A, some B, some C, some D, some E],
          draggingInfo := none, dropTargetIndex := none }
        [ Op.beginDrag ⟨rA.left + 5, rA.top + 5⟩ 0 [some rA, some rB, some rC, some rD, some rE],
          Op.updateDrag e [some rA, some rB, some rC, some rD, some rE],
          Op.endDrag ]
      = { rectangles := [some C, some B, some A, some D, some E],
          draggingInfo := none, dropTargetIndex := none } := by
  have hCD : disjointBoxes rC rD := by
    simp only [List.pairwise_cons] at hdisj
    exact hdisj.2.2.1 rD (by simp)
  have hCE : disjointBoxes rC rE := by
    simp only [List.pairwise_cons] at hdisj
    exact hdisj.2.2.1 rE (by simp)
  have hinC : pointerInside e rC = true := (pointerInside_iff e rC).2 hC
  have hinD : pointerInside e rD = false := by
    by_contra h
    exact hCD _ _ ⟨hC, (pointerInside_iff e rD).1 (by simpa using h)⟩
  have hinE : pointerInside e rE = false := by
    by_contra h
    exact hCE _ _ ⟨hC, (pointerInside_iff e rE).1 (by simpa using h)⟩
  simp [run, step, handleMouseDown, handleMouseMove, handleMouseUp, findTarget, forEachFrom,
    forEachBody, jsRead, jsWrite, swapRects, hinC, hinD, hinE]

/-- The boxes of the row of five are pairwise non-overlapping. -/
theorem rowBoxes_disjoint :
    List.Pairwise disjointBoxes
      [⟨10, 10, 100, 100⟩, ⟨120, 10, 100, 100⟩, ⟨230, 10, 100, 100⟩,
       ⟨340, 10, 100, 100⟩, ⟨450, 10, 100, 100⟩] := by
  simp only [List.pairwise_cons, List.mem_cons, List.mem_singleton, forall_eq_or_imp, forall_eq,
    List.not_mem_nil, false_implies, implies_true, List.Pairwise.nil, and_true, disjointBoxes,
    inClosedBox]
  refine ⟨⟨?_, ?_, ?_, ?_⟩, ⟨?_, ?_, ?_⟩, ⟨?_, ?_⟩, ?_⟩ <;> intro px py <;> omega

/-- The same at a concrete input: the five initial tiles in the row of five
boxes, press at (15, 15), move to (250, 50) inside the third box, release, with
a re-render after every event. -/
theorem scenario_grab_A_drop_on_C_witness :
    run initialState
        [ Op.beginDrag ⟨15, 15⟩ 0 rowBoxes, Op.updateDrag ⟨250, 50⟩ rowBoxes, Op.endDrag ]
      = { rectangles := [some ⟨3, "#2ecc71"⟩, some ⟨2, "#3498db"⟩, some ⟨1, "#e74c3c"⟩,
                         some ⟨4, "#9b59b6"⟩, some ⟨5, "#f1c40f"⟩],
          draggingInfo := none, dropTargetIndex := none } :=
  scenario_grab_A_drop_on_C ⟨1, "#e74c3c"⟩ ⟨2, "#3498db"⟩ ⟨3, "#2ecc71"⟩ ⟨4, "#9b59b6"⟩
    ⟨5, "#f1c40f"⟩ ⟨10, 10, 100, 100⟩ ⟨120, 10, 100, 100⟩ ⟨230, 10, 100, 100⟩
    ⟨340, 10, 100, 100⟩ ⟨450, 10, 100, 100⟩ ⟨250, 50⟩ rowBoxes_disjoint (by simp [inClosedBox])

/-! ## Reachable states keep the tiles -/

/-- Moving the entry at `j` to the front and putting `x` in its place rearranges
`x :: l`. -/
theorem getElem_cons_set_perm {α : Type} (x : α) :
    ∀ (l : List α) (j : Nat) (h : j < l.length), (l[j] :: l.set j x).Perm (x :: l) := by
  intro l
  induction l with
  | nil => intro j h; exact absurd h (Nat.not_lt_zero j)
  | cons y ys ih =>
    intro j h
    cases j with
    | zero => exact List.Perm.swap x y ys
    | succ k =>
      have hk : k < ys.length := by simpa using h
      have h1 : (ys[k] :: y :: ys.set k x).Perm (y :: ys[k] :: ys.set k x) :=
        List.Perm.swap y ys[k] (ys.set k x)
      have h2 : (y :: ys[k] :: ys.set k x).Perm (y :: x :: ys) := (ih k hk).cons y
      have h3 : (y :: x :: ys).Perm (x :: y :: ys) := List.Perm.swap x y ys
      simpa using (h1.trans h2).trans h3

/-- Exchanging two entries of a list rearranges it. -/
theorem set_set_exchange_perm {α : Type} :
    ∀ (l : List α) (i j : Nat) (hi : i < l.length) (hj : j < l.length),
      ((l.set i l[j]).set j l[i]).Perm l := by
  intro l
  induction l with
  | nil => intro i j hi; exact absurd hi (Nat.not_lt_zero i)
  | cons x xs ih =>
    intro i j hi hj
    cases i with
    | zero =>
      cases j with
      | zero => simp
      | succ j' =>
        have hj' : j' < xs.length := by simpa using hj
        simpa using getElem_cons_set_perm x xs j' hj'
    | succ i' =>
      have hi' : i' < xs.length := by simpa using hi
      cases j with
      | zero => simpa using getElem_cons_set_perm x xs i' hi'
      | succ j' =>
        have hj' : j' < xs.length := by simpa using hj
        simpa using (ih i' j' hi' hj').cons x

/-- In range, `swapRects` rearranges the rectangles. -/
theorem swapRects_perm (i j : Nat) (prev : JSArray Tile) (hi : i < prev.length)
    (hj : j < prev.length) : (swapRects i j prev).Perm prev := by
  rw [swapRects_of_lt i j prev hi hj]
  exact set_set_exchange_perm prev i j hi hj

/-- A drop target found by a move is a position of the measured row. -/
theorem findTarget_lt (e : MouseEvent) (d : Nat) (refs : JSArray DOMRect) (t : Nat)
    (h : findTarget e d refs = some t) : t < refs.length := by
  rcases findTarget_spec e d refs with ⟨t', ⟨-, box, hbox, -⟩, -, hres⟩ | ⟨-, hres⟩
  · rw [hres] at h
    cases h
    exact (List.getElem?_eq_some.1 hbox).1
  · rw [hres] at h
    exact Option.noConfusion h

/-- An element handle that can be read sits at a position of the row. -/
theorem jsRead_some_lt {α : Type} (a : JSArray α) (i : Nat) (v : α)
    (h : jsRead a i = some v) : i < a.length := by
  by_contra hge
  have : a[i]? = none := List.getElem?_eq_none (Nat.le_of_not_lt hge)
  simp [jsRead, this] at h

/-- Every event preserves the invariant, provided its measurements are indexed
by the tile positions. -/
theorem step_reordered (init : JSArray Tile) (s : AppState) (op : Op)
    (hs : Reordered init s) (hop : op.refsIndexedBy init.length) :
    Reordered init (step s op) := by
  obtain ⟨hperm, hsrc, htgt⟩ := hs
  cases op with
  | beginDrag e index refs =>
    have hlen : refs.length = init.length := hop
    cases hread : jsRead refs index with
    | none => simpa [step, handleMouseDown, hread] using ⟨hperm, hsrc, htgt⟩
    | some rect =>
      have hlt : index < init.length := hlen ▸ jsRead_some_lt refs index rect hread
      refine ⟨by simpa [step, handleMouseDown, hread] using hperm, ?_, ?_⟩
      · intro d hd
        simp [step, handleMouseDown, hread] at hd
        rw [← hd]
        exact hlt
      · intro t ht
        simp [step, handleMouseDown, hread] at ht
        exact htgt t ht
  | updateDrag e refs =>
    have hlen : refs.length = init.length := hop
    cases hinfo : s.draggingInfo with
    | none => simpa [step, handleMouseMove, hinfo] using ⟨hperm, hsrc, htgt⟩
    | some info =>
      simp only [step, handleMouseMove_of_session e refs s info hinfo]
      refine ⟨hperm, ?_, ?_⟩
      · intro d hd
        simp only [Option.some.injEq] at hd
        rw [← hd]
        exact hsrc info hinfo
      · intro t ht
        exact hlen ▸ findTarget_lt e info.index refs t ht
  | endDrag =>
    cases hinfo : s.draggingInfo with
    | none => simpa [step, handleMouseUp, hinfo] using ⟨hperm, hsrc, htgt⟩
    | some info =>
      have hlenr : s.rectangles.length = init.length := hperm.length_eq
      refine ⟨?_, by simp [step, handleMouseUp, hinfo], by simp [step, handleMouseUp, hinfo]⟩
      cases htarget : s.dropTargetIndex with
      | none => simpa [step, handleMouseUp, hinfo, htarget] using hperm
      | some target =>
        by_cases hne : target = info.index
        · simpa [step, handleMouseUp, hinfo, htarget, hne] using hperm
        · have hp := swapRects_perm info.index target s.rectangles
            (hlenr ▸ hsrc info hinfo) (hlenr ▸ htgt target htarget)
          simpa [step, handleMouseUp, hinfo, htarget, hne] using hp.trans hperm

/-- Every sequence of events preserves the invariant. -/
theorem run_reordered (init : JSArray Tile) (ops : List Op) :
    ∀ (s : AppState), Reordered init s → (∀ op ∈ ops, op.refsIndexedBy init.length) →
      Reordered init (run s ops) := by
  induction ops with
  | nil => intro s hs _; exact hs
  | cons op ops ih =>
    intro s hs hops
    have h1 := step_reordered init s op hs (hops op (List.mem_cons_self op ops))
    have h2 := ih (step s op) h1 (fun o ho => hops o (List.mem_cons_of_mem op ho))
    simpa [run] using h2

/-- A rearrangement of a sequence without undefined entries has none either. -/
theorem perm_map_some {α : Type} (tiles : List α) :
    ∀ (l : JSArray α), l.Perm (tiles.map some) →
      ∃ ts : List α, l = ts.map some ∧ ts.Perm tiles := by
  intro l hl
  refine ⟨l.filterMap id, ?_, ?_⟩
  · have hall : ∀ x ∈ l, ∃ t, x = some t := by
      intro x hx
      have := hl.subset hx
      simp only [List.mem_map] at this
      obtain ⟨t, -, ht⟩ := this
      exact ⟨t, ht.symm⟩
    clear hl
    induction l with
    | nil => rfl
    | cons x xs ih =>
      obtain ⟨t, rfl⟩ := hall x (List.mem_cons_self x xs)
      have := ih (fun y hy => hall y (List.mem_cons_of_mem _ hy))
      simp only [List.filterMap_cons, id_eq, List.map_cons]
      rw [← this]
  · have := hl.filterMap id
    simpa [List.filterMap_map] using this

/-- C10: after every sequence of press, move and release events applied to the
state of the first render, each observing measurements indexed by the tile
positions, the rectangles are a sequence of tiles (no undefined entry) that is
a permutation of the initial sequence: same length, nothing added, removed or
duplicated, and pairwise distinct ids. -/
theorem tiles_always_permutation (ops : List Op)
    (hops : ∀ op ∈ ops, op.refsIndexedBy initialRectangles.length) :
    ∃ tiles : List Tile,
      (run initialState ops).rectangles = tiles.map some ∧
      tiles.Perm initialRectangles ∧
      tiles.length = initialRectangles.length ∧
      (tiles.map Tile.id).Nodup := by
  have hinit : Reordered (initialRectangles.map some) initialState :=
    ⟨List.Perm.refl _, by simp [initialState], by simp [initialState]⟩
  have hrun := run_reordered (initialRectangles.map some) ops initialState hinit
    (by simpa using hops)
  obtain ⟨tiles, htiles, hperm⟩ := perm_map_some initialRectangles _ hrun.1
  refine ⟨tiles, htiles, hperm, hperm.length_eq, ?_⟩
  rw [(hperm.map Tile.id).nodup_iff]
  decide

/-- C10 at a concrete input: two complete drags in the row of five boxes. -/
theorem tiles_always_permutation_witness :
    ∃ tiles : List Tile,
      (run initialState
        [ Op.beginDrag ⟨15, 15⟩ 0 rowBoxes, Op.updateDrag ⟨250, 50⟩ rowBoxes, Op.endDrag,
          Op.beginDrag ⟨460, 20⟩ 4 rowBoxes, Op.updateDrag ⟨130, 50⟩ rowBoxes,
          Op.endDrag ]).rectangles = tiles.map some ∧
      tiles.Perm initialRectangles ∧
      tiles.length = initialRectangles.length ∧
      (tiles.map Tile.id).Nodup :=
  tiles_always_permutation
    [ Op.beginDrag ⟨15, 15⟩ 0 rowBoxes, Op.updateDrag ⟨250, 50⟩ rowBoxes, Op.endDrag,
      Op.beginDrag ⟨460, 20⟩ 4 rowBoxes, Op.updateDrag ⟨130, 50⟩ rowBoxes, Op.endDrag ]
    (by simp [Op.refsIndexedBy, rowBoxes, initialRectangles])

/-! ## The swap is its own inverse -/

/-- In range, `swapRects` written with the two values it reads. -/
theorem swapRects_eq_set_jsRead (i j : Nat) (prev : JSArray Tile) (hi : i < prev.length)
    (hj : j < prev.length) :
    swapRects i j prev = (prev.set i (jsRead prev j)).set j (jsRead prev i) := by
  simp [swapRects, jsWrite, hi, hj]

/-- In range, `swapRects` keeps the length. -/
theorem swapRects_length (i j : Nat) (prev : JSArray Tile) (hi : i < prev.length)
    (hj : j < prev.length) : (swapRects i j prev).length = prev.length := by
  simp [swapRects_eq_set_jsRead i j prev hi hj]

/-- Reading a JavaScript array after an in-range list update. -/
theorem jsRead_set {α : Type} (a : JSArray α) (i k : Nat) (v : Option α) (hi : i < a.length) :
    jsRead (a.set i v) k = if i = k then v else jsRead a k := by
  by_cases h : i = k
  · subst h
    simp [jsRead, List.getElem?_set, hi]
  · simp [jsRead, List.getElem?_set, h]

/-- In range, `swapRects` puts at `j` what was at `i`. -/
theorem jsRead_swapRects_right (i j : Nat) (prev : JSArray Tile) (hi : i < prev.length)
    (hj : j < prev.length) : jsRead (swapRects i j prev) j = jsRead prev i := by
  rw [swapRects_eq_set_jsRead i j prev hi hj, jsRead_set _ j j _ (by simpa using hj)]
  simp

/-- In range, `swapRects` puts at `i` what was at `j`. -/
theorem jsRead_swapRects_left (i j : Nat) (prev : JSArray Tile) (hi : i < prev.length)
    (hj : j < prev.length) : jsRead (swapRects i j prev) i = jsRead prev j := by
  rw [swapRects_eq_set_jsRead i j prev hi hj, jsRead_set _ j i _ (by simpa using hj),
    jsRead_set _ i i _ hi]
  by_cases h : j = i
  · subst h
    simp
  · simp [h]

/-- In range, exchanging the same two positions twice gives back the array. -/
theorem swapRects_twice (i j : Nat) (prev : JSArray Tile) (hi : i < prev.length)
    (hj : j < prev.length) : swapRects i j (swapRects i j prev) = prev := by
  have hlen := swapRects_length i j prev hi hj
  rw [swapRects_eq_set_jsRead i j (swapRects i j prev) (hlen ▸ hi) (hlen ▸ hj),
    jsRead_swapRects_right i j prev hi hj, jsRead_swapRects_left i j prev hi hj,
    swapRects_eq_set_jsRead i j prev hi hj]
  apply List.ext_getElem?
  intro k
  have hri := jsRead_of_lt prev i hi
  have hrj := jsRead_of_lt prev j hj
  by_cases hjk : j = k
  · subst hjk
    simp [List.getElem?_set, hj, hrj]
  · by_cases hik : i = k
    · subst hik
      simp [List.getElem?_set, hi, hjk, hri]
    · simp [List.getElem?_set, hjk, hik]

/-- C11: with an active session on `sourceIndex` and a drop target, both in
range and different, releasing, then releasing again in a session with the same
source index and the same drop target, returns exactly the original tile
sequence. -/
theorem swap_twice_restores (s : AppState) (info again : DragInfo) (target : Nat)
    (hinfo : s.draggingInfo = some info) (htarget : s.dropTargetIndex = some target)
    (hsrc : info.index < s.rectangles.length) (htgt : target < s.rectangles.length)
    (hne : info.index ≠ target) (hsame : again.index = info.index) :
    (handleMouseUp { handleMouseUp s with
        draggingInfo := some again, dropTargetIndex := some target }).rectangles
      = s.rectangles := by
  have h1 := handleMouseUp_rectangles_swap s info target hinfo htarget hne
  rw [handleMouseUp_rectangles_swap _ again target rfl rfl (hsame ▸ hne)]
  simp only [h1, hsame]
  exact swapRects_twice info.index target s.rectangles hsrc htgt

/-- C11 at a concrete input: tiles 1..5, tile 0 dropped on tile 2 twice. -/
theorem swap_twice_restores_witness :
    (handleMouseUp { handleMouseUp { grabbed 0 10 10 with dropTargetIndex := some 2 } with
        draggingInfo := some ⟨0, 7, 9, 230, 10⟩, dropTargetIndex := some 2 }).rectangles
      = initialRectangles.map some :=
  swap_twice_restores { grabbed 0 10 10 with dropTargetIndex := some 2 } ⟨0, 5, 5, 10, 10⟩
    ⟨0, 7, 9, 230, 10⟩ 2 rfl rfl (by decide) (by decide) (by decide) rfl

/-! ## The drop target exists only in a session -/

/-- One event keeps the property that an idle state has no drop target. -/
theorem step_idle_no_target (s : AppState) (op : Op)
    (h : s.draggingInfo = none → s.dropTargetIndex = none) :
    (step s op).draggingInfo = none → (step s op).dropTargetIndex = none := by
  cases op with
  | beginDrag e index refs =>
    cases hread : jsRead refs index with
    | none => simpa [step, handleMouseDown, hread] using h
    | some rect => simp [step, handleMouseDown, hread]
  | updateDrag e refs =>
    cases hinfo : s.draggingInfo with
    | none => simpa [step, handleMouseMove, hinfo] using h hinfo
    | some info => simp [step, handleMouseMove, hinfo]
  | endDrag =>
    cases hinfo : s.draggingInfo with
    | none => simpa [step, handleMouseUp, hinfo] using h hinfo
    | some info => simp [step, handleMouseUp, hinfo]

/-- Every sequence of events keeps the property that an idle state has no drop
target. -/
theorem run_idle_no_target (ops : List Op) :
    ∀ (s : AppState), (s.draggingInfo = none → s.dropTargetIndex = none) →
      (run s ops).draggingInfo = none → (run s ops).dropTargetIndex = none := by
  induction ops with
  | nil => intro s h; exact h
  | cons op ops ih =>
    intro s h
    simpa [run] using ih (step s op) (step_idle_no_target s op h)

/-- C12: in every state reached from the state of the first render by press,
move and release events, an idle state (no session) has no drop target; put the
other way round, a drop target is set only while a session is active. -/
theorem dropTarget_only_in_session (ops : List Op) :
    ((run initialState ops).draggingInfo = none →
        (run initialState ops).dropTargetIndex = none) ∧
    (∀ t, (run initialState ops).dropTargetIndex = some t →
        ∃ d, (run initialState ops).draggingInfo = some d) := by
  have h := run_idle_no_target ops initialState (fun _ => rfl)
  refine ⟨h, ?_⟩
  intro t ht
  cases hd : (run initialState ops).draggingInfo with
  | none =>
    rw [h hd] at ht
    exact Option.noConfusion ht
  | some d => exact ⟨d, rfl⟩

/-- C12 at a concrete input: a complete drag of tile 0 onto tile 2 ends idle,
with no drop target. -/
theorem dropTarget_only_in_session_witness :
    (run initialState
        [ Op.beginDrag ⟨15, 15⟩ 0 rowBoxes, Op.updateDrag ⟨250, 50⟩ rowBoxes,
          Op.endDrag ]).draggingInfo = none ∧
    (run initialState
        [ Op.beginDrag ⟨15, 15⟩ 0 rowBoxes, Op.updateDrag ⟨250, 50⟩ rowBoxes,
          Op.endDrag ]).dropTargetIndex = none :=
  have hidle : (run initialState
        [ Op.beginDrag ⟨15, 15⟩ 0 rowBoxes, Op.updateDrag ⟨250, 50⟩ rowBoxes,
          Op.endDrag ]).draggingInfo = none := by decide
  ⟨hidle, (dropTarget_only_in_session
      [ Op.beginDrag ⟨15, 15⟩ 0 rowBoxes, Op.updateDrag ⟨250, 50⟩ rowBoxes,
        Op.endDrag ]).1 hidle⟩

/-! ## Missing element handles -/

/-- C13: a press on an index whose bounding box cannot be obtained (no element
handle at that index, or the index lies outside `rectRefs.current`) aborts: the
whole state, tile sequence, session and drop target, is unchanged. -/
theorem beginDrag_unmeasurable_aborts (s : AppState) (e : MouseEvent) (index : Nat)
    (refs : JSArray DOMRect) (hmissing : ∀ box, refs[index]? ≠ some (some box)) :
    handleMouseDown e index refs s = s := by
  have hread : jsRead refs index = none := by
    unfold jsRead
    cases h : refs[index]? with
    | none => rfl
    | some v =>
      cases v with
      | none => rfl
      | some box => exact absurd h (hmissing box)
  simp [handleMouseDown, hread]

/-- C13 at a concrete input: a press on tile 1 whose element handle is missing,
while a session on tile 0 with drop target 2 is active. -/
theorem beginDrag_unmeasurable_aborts_witness :
    handleMouseDown ⟨125, 17⟩ 1 [some ⟨10, 10, 100, 100⟩, none, some ⟨230, 10, 100, 100⟩]
        { grabbed 0 10 10 with dropTargetIndex := some 2 }
      = { grabbed 0 10 10 with dropTargetIndex := some 2 } :=
  beginDrag_unmeasurable_aborts { grabbed 0 10 10 with dropTargetIndex := some 2 } ⟨125, 17⟩ 1
    [some ⟨10, 10, 100, 100⟩, none, some ⟨230, 10, 100, 100⟩] (by simp)

/-- C14, as stated, fails: tile 0 is grabbed with its floating copy at (10, 10)
and no drop target, the element handle of tile 1 is missing, and the pointer
moves to (250, 50) inside tile 2's box. The move does not abort: the floating
copy goes to (245, 45) and the drop target becomes 2. -/
theorem updateDrag_missing_box_counterexample :
    (grabbed 0 10 10).draggingInfo = some ⟨0, 5, 5, 10, 10⟩ ∧
    (grabbed 0 10 10).dropTargetIndex = none ∧
    rowBoxesMissingOne[1]? = some none ∧
    (handleMouseMove ⟨250, 50⟩ rowBoxesMissingOne (grabbed 0 10 10)).draggingInfo
      = some ⟨0, 5, 5, 245, 45⟩ ∧
    (handleMouseMove ⟨250, 50⟩ rowBoxesMissingOne (grabbed 0 10 10)).dropTargetIndex
      = some 2 ∧
    handleMouseMove ⟨250, 50⟩ rowBoxesMissingOne (grabbed 0 10 10) ≠ grabbed 0 10 10 := by
  decide

/-- C14, amended: in an active session, a tile `k` whose bounding box cannot be
obtained is only skipped by the scan. It is never the drop target; the floating
position is still set to the pointer minus the grab offset; and the drop target
is still recomputed from the tiles that can be measured: the greatest hit index,
or none when no tile is hit. -/
theorem updateDrag_skips_missing_box (s : AppState) (info : DragInfo) (e : MouseEvent)
    (refs : JSArray DOMRect) (k : Nat) (hinfo : s.draggingInfo = some info)
    (hmissing : ∀ box, refs[k]? ≠ some (some box)) :
    (handleMouseMove e refs s).draggingInfo =
      some { index := info.index, offsetX := info.offsetX, offsetY := info.offsetY,
             x := e.clientX - info.offsetX, y := e.clientY - info.offsetY } ∧
    (handleMouseMove e refs s).dropTargetIndex ≠ some k ∧
    ((∃ t, (handleMouseMove e refs s).dropTargetIndex = some t ∧ isHit e info.index refs t ∧
          ∀ j, isHit e info.index refs j → j ≤ t) ∨
      ((handleMouseMove e refs s).dropTargetIndex = none ∧
          ∀ j, ¬ isHit e info.index refs j)) := by
  rw [handleMouseMove_of_session e refs s info hinfo]
  refine ⟨rfl, ?_, ?_⟩
  · rcases findTarget_spec e info.index refs with ⟨t, ht, -, hres⟩ | ⟨-, hres⟩
    · simp only [hres]
      intro h
      obtain ⟨-, box, hbox, -⟩ := ht
      exact hmissing box (Option.some.inj h ▸ hbox)
    · simp [hres]
  · rcases findTarget_spec e info.index refs with ⟨t, ht, hmax, hres⟩ | ⟨hno, hres⟩
    · exact Or.inl ⟨t, hres, ht, hmax⟩
    · exact Or.inr ⟨hres, hno⟩

/-- C14, amended, at a concrete input: the input of the counterexample. -/
theorem updateDrag_skips_missing_box_witness :
    (handleMouseMove ⟨250, 50⟩ rowBoxesMissingOne (grabbed 0 10 10)).draggingInfo =
      some { index := 0, offsetX := 5, offsetY := 5, x := 250 - 5, y := 50 - 5 } ∧
    (handleMouseMove ⟨250, 50⟩ rowBoxesMissingOne (grabbed 0 10 10)).dropTargetIndex ≠ some 1 :=
  have h := updateDrag_skips_missing_box (grabbed 0 10 10) ⟨0, 5, 5, 10, 10⟩ ⟨250, 50⟩
    rowBoxesMissingOne 1 rfl (by simp [rowBoxesMissingOne])
  ⟨h.1, h.2.1⟩

/-! ## Frame properties -/

/-- C15: in an active session a move changes at most the floating position and
the drop target: the tile sequence is the same, and the state still has a
session, with the same source index and the same grab offset. -/
theorem updateDrag_frame (s : AppState) (info : DragInfo) (e : MouseEvent)
    (refs : JSArray DOMRect) (hinfo : s.draggingInfo = some info) :
    (handleMouseMove e refs s).rectangles = s.rectangles ∧
    ∃ d, (handleMouseMove e refs s).draggingInfo = some d ∧ d.index = info.index ∧
      d.offsetX = info.offsetX ∧ d.offsetY = info.offsetY := by
  rw [handleMouseMove_of_session e refs s info hinfo]
  exact ⟨rfl, _, rfl, rfl, rfl, rfl⟩

/-- C15 at a concrete input: tile 0 grabbed, a move to (250, 50). -/
theorem updateDrag_frame_witness :
    (handleMouseMove ⟨250, 50⟩ rowBoxes (grabbed 0 10 10)).rectangles
      = initialRectangles.map some ∧
    ∃ d, (handleMouseMove ⟨250, 50⟩ rowBoxes (grabbed 0 10 10)).draggingInfo = some d ∧
      d.index = 0 ∧ d.offsetX = 5 ∧ d.offsetY = 5 :=
  updateDrag_frame (grabbed 0 10 10) ⟨0, 5, 5, 10, 10⟩ ⟨250, 50⟩ rowBoxes rfl

/-- C17: a press on a measurable tile writes only the session: the tile sequence
and the drop target are unchanged. So when the drop target of a running session
is `index`, a press on `index` leaves a state whose drop target equals the new
source index; a release right then commits no swap, and the next move or
release overwrites the stale target. -/
theorem beginDrag_writes_only_session (s : AppState) (e : MouseEvent) (index : Nat)
    (refs : JSArray DOMRect) (rect : DOMRect) (hrect : refs[index]? = some (some rect)) :
    (handleMouseDown e index refs s).rectangles = s.rectangles ∧
    (handleMouseDown e index refs s).dropTargetIndex = s.dropTargetIndex ∧
    (s.dropTargetIndex = some index →
      (∃ d, (handleMouseDown e index refs s).draggingInfo = some d ∧
          (handleMouseDown e index refs s).dropTargetIndex = some d.index) ∧
      (handleMouseUp (handleMouseDown e index refs s)).rectangles = s.rectangles) ∧
    (∀ e2 refs2, (handleMouseMove e2 refs2 (handleMouseDown e index refs s)).dropTargetIndex
        = findTarget e2 index refs2) ∧
    (handleMouseUp (handleMouseDown e index refs s)).dropTargetIndex = none := by
  rw [handleMouseDown_of_measured e index refs s rect hrect]
  refine ⟨rfl, rfl, ?_, ?_, ?_⟩
  · intro hstale
    exact ⟨⟨_, rfl, hstale⟩, by simp [handleMouseUp, hstale]⟩
  · intro e2 refs2
    simp [handleMouseMove]
  · simp [handleMouseUp]

/-- C17 at a concrete input: tile 0 is grabbed and moved over tile 2, so the
drop target is 2; a press on tile 2 then leaves the drop target 2, equal to the
new source index. -/
theorem beginDrag_writes_only_session_witness :
    (run initialState
        [Op.beginDrag ⟨15, 15⟩ 0 rowBoxes, Op.updateDrag ⟨250, 50⟩ rowBoxes]).dropTargetIndex
      = some 2 ∧
    ∃ d, (handleMouseDown ⟨235, 50⟩ 2 rowBoxes (run initialState
          [Op.beginDrag ⟨15, 15⟩ 0 rowBoxes, Op.updateDrag ⟨250, 50⟩ rowBoxes])).draggingInfo
        = some d ∧
      (handleMouseDown ⟨235, 50⟩ 2 rowBoxes (run initialState
          [Op.beginDrag ⟨15, 15⟩ 0 rowBoxes, Op.updateDrag ⟨250, 50⟩ rowBoxes])).dropTargetIndex
        = some d.index :=
  have hstale : (run initialState
        [Op.beginDrag ⟨15, 15⟩ 0 rowBoxes, Op.updateDrag ⟨250, 50⟩ rowBoxes]).dropTargetIndex
      = some 2 := by decide
  ⟨hstale, ((beginDrag_writes_only_session (run initialState
      [Op.beginDrag ⟨15, 15⟩ 0 rowBoxes, Op.updateDrag ⟨250, 50⟩ rowBoxes]) ⟨235, 50⟩ 2 rowBoxes
      ⟨230, 10, 100, 100⟩ rfl).2.2.1 hstale).1⟩

/-- C18: the last move wins. A move at `e1` with measurements `b1` followed by a
move at `e2` with `b2` gives the same state as the move at `e2` with `b2` alone;
in particular repeating a move with the same pointer and measurements changes
nothing more. -/
theorem last_updateDrag_wins (s : AppState) (e1 e2 : MouseEvent) (b1 b2 : JSArray DOMRect) :
    handleMouseMove e2 b2 (handleMouseMove e1 b1 s) = handleMouseMove e2 b2 s ∧
    handleMouseMove e2 b2 (handleMouseMove e2 b2 s) = handleMouseMove e2 b2 s := by
  cases hinfo : s.draggingInfo with
  | none => simp [handleMouseMove, hinfo]
  | some info =>
    rw [handleMouseMove_of_session e1 b1 s info hinfo,
      handleMouseMove_of_session e2 b2 s info hinfo]
    simp [handleMouseMove]

/-! ## Lookups in reachable states -/

/-- Reading a sequence of tiles at one of its positions gives that tile. -/
theorem jsRead_map_some {α : Type} (tiles : List α) (i : Nat) (h : i < tiles.length) :
    jsRead (tiles.map some) i = some tiles[i] := by
  simp [jsRead, List.getElem?_eq_getElem, h]

/-- C16: in every state reached from the state of the first render by events
whose measurements are indexed by the tile positions, the source index of an
active session and a drop target that is set are both below the length of the
tile sequence, and the reads `rectangles[index]` at them give a tile; so the
lookup of the floating copy never reads `undefined`. This holds even when presses
on indices that are not tiles are allowed: such a press finds no element handle
and aborts. -/
theorem lookups_always_hit_tile (ops : List Op)
    (hops : ∀ op ∈ ops, op.refsIndexedBy initialRectangles.length) :
    (∀ d, (run initialState ops).draggingInfo = some d →
        d.index < (run initialState ops).rectangles.length ∧
        ∃ tile, jsRead (run initialState ops).rectangles d.index = some tile) ∧
    (∀ t, (run initialState ops).dropTargetIndex = some t →
        t < (run initialState ops).rectangles.length ∧
        ∃ tile, jsRead (run initialState ops).rectangles t = some tile) ∧
    (∃ copy, renderFloating (run initialState ops) = Except.ok copy) := by
  have hinit : Reordered (initialRectangles.map some) initialState :=
    ⟨List.Perm.refl _, by simp [initialState], by simp [initialState]⟩
  obtain ⟨hperm, hsrc, htgt⟩ := run_reordered (initialRectangles.map some) ops initialState hinit
    (by simpa using hops)
  obtain ⟨tiles, htiles, -⟩ := perm_map_some initialRectangles _ hperm
  have hlen : (run initialState ops).rectangles.length = (initialRectangles.map some).length :=
    hperm.length_eq
  have hread : ∀ i, i < (initialRectangles.map some).length →
      ∃ tile, jsRead (run initialState ops).rectangles i = some tile := by
    intro i hi
    have hi2 : i < tiles.length := by
      have := hlen
      rw [htiles, List.length_map] at this
      omega
    exact ⟨tiles[i], by rw [htiles]; exact jsRead_map_some tiles i hi2⟩
  refine ⟨?_, ?_, ?_⟩
  · intro d hd
    exact ⟨hlen ▸ hsrc d hd, hread d.index (hsrc d hd)⟩
  · intro t ht
    exact ⟨hlen ▸ htgt t ht, hread t (htgt t ht)⟩
  · cases hd : (run initialState ops).draggingInfo with
    | none => exact ⟨none, by simp [renderFloating, hd]⟩
    | some d =>
      obtain ⟨tile, htile⟩ := hread d.index (hsrc d hd)
      exact ⟨_, by simp [renderFloating, hd, htile]; rfl⟩

/-- C16 at a concrete input: tile 0 grabbed and moved over tile 2 in the row of
five boxes. -/
theorem lookups_always_hit_tile_witness :
    (∀ d, (run initialState
          [Op.beginDrag ⟨15, 15⟩ 0 rowBoxes, Op.updateDrag ⟨250, 50⟩ rowBoxes]).draggingInfo
        = some d →
        d.index < (run initialState
          [Op.beginDrag ⟨15, 15⟩ 0 rowBoxes,
           Op.updateDrag ⟨250, 50⟩ rowBoxes]).rectangles.length ∧
        ∃ tile, jsRead (run initialState
          [Op.beginDrag ⟨15, 15⟩ 0 rowBoxes, Op.updateDrag ⟨250, 50⟩ rowBoxes]).rectangles
            d.index = some tile) ∧
    (∃ copy, renderFloating (run initialState
          [Op.beginDrag ⟨15, 15⟩ 0 rowBoxes, Op.updateDrag ⟨250, 50⟩ rowBoxes])
        = Except.ok copy) :=
  have h := lookups_always_hit_tile
    [Op.beginDrag ⟨15, 15⟩ 0 rowBoxes, Op.updateDrag ⟨250, 50⟩ rowBoxes]
    (by simp [Op.refsIndexedBy, rowBoxes, initialRectangles])
  ⟨h.1, h.2.2⟩

/-! ## Listeners reading a stale render -/

/-- On a component that has just re-rendered, the move listener is
`handleMouseMove`. -/
theorem mouseMoveListener_rendered (s : AppState) (l : Listeners) (e : MouseEvent)
    (refs : JSArray DOMRect) (hl : useEffect s = some l) :
    mouseMoveListener l e refs s = Except.ok (handleMouseMove e refs s) := by
  cases hinfo : s.draggingInfo with
  | none => simp [useEffect, hinfo] at hl
  | some info =>
    simp only [useEffect, hinfo, Option.some.injEq] at hl
    subst hl
    simp [mouseMoveListener, handleMouseMove, hinfo]

/-- On a component that has just re-rendered, the release listener is
`handleMouseUp`. -/
theorem mouseUpListener_rendered (s : AppState) (l : Listeners)
    (hl : useEffect s = some l) : mouseUpListener l s = handleMouseUp s := by
  cases hinfo : s.draggingInfo with
  | none => simp [useEffect, hinfo] at hl
  | some info =>
    simp only [useEffect, hinfo, Option.some.injEq] at hl
    subst hl
    simp [mouseUpListener, handleMouseUp, hinfo]

/-- A component that has just re-rendered handles a move and a release as
`handleMouseMove` and `handleMouseUp` do. -/
theorem deliver_rendered (c : Mounted) (e : MouseEvent) (refs : JSArray DOMRect)
    (hc : c.listeners = useEffect c.cells) :
    deliver c (Event.mouseMove e refs)
      = Except.ok { c with cells := handleMouseMove e refs c.cells } ∧
    deliver c Event.mouseUp = Except.ok { c with cells := handleMouseUp c.cells } := by
  obtain ⟨cells, listeners⟩ := c
  simp only at hc
  subst hc
  cases hl : useEffect cells with
  | none =>
    have hinfo : cells.draggingInfo = none := by
      cases h : cells.draggingInfo with
      | none => rfl
      | some info => simp [useEffect, h] at hl
    simp [deliver, hl, handleMouseMove, handleMouseUp, hinfo]
  | some l =>
    simp [deliver, hl, mouseMoveListener_rendered cells l e refs hl,
      mouseUpListener_rendered cells l hl]

/-- C9: on the code the scenario fails when the release is delivered before the
re-render that the move schedules. Tiles 1..5 in the row of five boxes, press on
tile 0 at (15, 15), which is its top-left corner plus (5, 5), re-render, move to
(250, 50) inside tile 2's box: the cells now hold drop target 2. A release
right then reads the drop target captured by the listeners, which is still
none, commits no swap and leaves the order `[1, 2, 3, 4, 5]`. With a re-render
before the release the order becomes `[3, 2, 1, 4, 5]`, as the scenario says. -/
theorem scenario_release_before_render :
    cellsAfter [ Event.mouseDown ⟨15, 15⟩ 0 rowBoxes, Event.render,
                 Event.mouseMove ⟨250, 50⟩ rowBoxes ]
      = Except.ok { rectangles := initialRectangles.map some,
                    draggingInfo := some ⟨0, 5, 5, 245, 45⟩,
                    dropTargetIndex := some 2 } ∧
    cellsAfter [ Event.mouseDown ⟨15, 15⟩ 0 rowBoxes, Event.render,
                 Event.mouseMove ⟨250, 50⟩ rowBoxes, Event.mouseUp ]
      = Except.ok { rectangles := initialRectangles.map some,
                    draggingInfo := none, dropTargetIndex := none } ∧
    cellsAfter [ Event.mouseDown ⟨15, 15⟩ 0 rowBoxes, Event.render,
                 Event.mouseMove ⟨250, 50⟩ rowBoxes, Event.render, Event.mouseUp ]
      = Except.ok { rectangles := [some ⟨3, "#2ecc71"⟩, some ⟨2, "#3498db"⟩,
                                   some ⟨1, "#e74c3c"⟩, some ⟨4, "#9b59b6"⟩,
                                   some ⟨5, "#f1c40f"⟩],
                    draggingInfo := none, dropTargetIndex := none } :=
  ⟨rfl, rfl, rfl⟩

/-- C3: on the code the release part fails when the release is delivered before
the re-render that the last move schedules. Tile 0 is grabbed, a move over tile
2 is rendered (the listeners capture drop target 2), then the pointer moves to
(15, 15), which lies in tile 0's own box and in no other: the move sets drop
target none. A release right then still tests the captured target 2 and swaps
tiles 0 and 2, giving `[3, 2, 1, 4, 5]` instead of the unchanged order. -/
theorem release_over_source_before_render :
    (∀ idx box, idx ≠ 0 → rowBoxes[idx]? = some (some box) → ¬ inClosedBox box 15 15) ∧
    inClosedBox ⟨10, 10, 100, 100⟩ 15 15 ∧
    cellsAfter [ Event.mouseDown ⟨15, 15⟩ 0 rowBoxes, Event.render,
                 Event.mouseMove ⟨250, 50⟩ rowBoxes, Event.render,
                 Event.mouseMove ⟨15, 15⟩ rowBoxes ]
      = Except.ok { rectangles := initialRectangles.map some,
                    draggingInfo := some ⟨0, 5, 5, 10, 10⟩,
                    dropTargetIndex := none } ∧
    cellsAfter [ Event.mouseDown ⟨15, 15⟩ 0 rowBoxes, Event.render,
                 Event.mouseMove ⟨250, 50⟩ rowBoxes, Event.render,
                 Event.mouseMove ⟨15, 15⟩ rowBoxes, Event.mouseUp ]
      = Except.ok { rectangles := [some ⟨3, "#2ecc71"⟩, some ⟨2, "#3498db"⟩,
                                   some ⟨1, "#e74c3c"⟩, some ⟨4, "#9b59b6"⟩,
                                   some ⟨5, "#f1c40f"⟩],
                    draggingInfo := none, dropTargetIndex := none } := by
  refine ⟨?_, by simp [inClosedBox], rfl, rfl⟩
  intro idx box hne hbox
  obtain ⟨-, rfl⟩ := rowBoxes_entry idx box hbox
  simp only [inClosedBox]
  omega

end Rankly
